import Mathlib

/-!
Verification development for the subscribedev-boilerplate repository.

The embedded code consists of:
* the development server (`server.ts`): the in-memory bundle cache
  (`bundleEntry`, `invalidateAll`), the HTTP request dispatcher
  (`handleFetch`) and the file-watcher callback (`watchCallback`);
* the production build script (`build.ts`): the compile-time define table
  (`prodDefine`), the build configuration (`prodConfig`), the build driver
  (`runBuild`) and the HTML reference rewriting (`updatedHtml`, built on a
  faithful model `jsReplace` of JavaScript's first-occurrence
  `String.replace` with a string pattern);
* the application root component (`src/App.tsx`, embedded as `App`).

The external bundler (Bun.build) is modelled as an arbitrary function from a
build configuration to a build result; the process environment as a function
from variable names to optional string values.
-/

/-- JSON.stringify escaping for a single character, as applied to the
characters of a string argument. -/
def jsonEscapeChar (c : Char) : String :=
  if c = '"' then "\\\""
  else if c = '\\' then "\\\\"
  else if c = '\n' then "\\n"
  else if c = '\r' then "\\r"
  else if c = '\t' then "\\t"
  else if c = '\x08' then "\\b"
  else if c = '\x0c' then "\\f"
  else if c.toNat < 32 then
    "\\u00" ++ String.mk [Nat.digitChar (c.toNat / 16), Nat.digitChar (c.toNat % 16)]
  else String.singleton c

/-- `JSON.stringify` applied to a string value: the quoted, escaped string
literal. -/
def jsonStringify (s : String) : String :=
  "\"" ++ String.join (s.data.map jsonEscapeChar) ++ "\""

/-- A process environment: variable name to optional value
(`process.env`). -/
abbrev Env := String → Option String

/-- The value of `process.env.X || ""`: the variable's value, or the empty
string when the variable is unset or empty (both are falsy in JavaScript,
and both yield `""`). -/
def envOrEmpty (env : Env) (key : String) : String :=
  (env key).getD ""

/-- Configuration passed to the external bundler (the argument object of
`Bun.build`). -/
structure BuildConfig where
  entrypoints : List String
  outdir : Option String
  target : String
  format : String
  splitting : Bool
  minify : Bool
  define : List (String × String)
  deriving DecidableEq

/-- Result returned by the external bundler: a success flag, log messages,
and the produced output texts. -/
structure BuildResult where
  success : Bool
  logs : List String
  outputs : List String

/-- An external bundler: any function from build configuration to build
result. -/
abbrev Bundler := BuildConfig → BuildResult

/-- The `define` table of the production build script (`build.ts`): public
API key from the environment (empty string if unset), local access token
forced to the literal `undefined`, and fixed production mode flags. -/
def prodDefine (env : Env) : List (String × String) :=
  [ ("import.meta.env.VITE_SUBSCRIBEDEV_PUBLIC_API_KEY",
      jsonStringify (envOrEmpty env "VITE_SUBSCRIBEDEV_PUBLIC_API_KEY")),
    ("import.meta.env.VITE_SUBSCRIBEDEV_LOCAL_ACCESS_TOKEN", "undefined"),
    ("import.meta.env.DEV", "false"),
    ("import.meta.env.MODE", jsonStringify "production"),
    ("import.meta.env.PROD", "true") ]

/-- The full `Bun.build` configuration of the production build script. -/
def prodConfig (env : Env) : BuildConfig :=
  { entrypoints := ["./src/main.tsx"],
    outdir := some "./dist",
    target := "browser",
    format := "esm",
    splitting := true,
    minify := true,
    define := prodDefine env }

/-- The `define` table of the development server's bundling call
(`server.ts`): both the public key and the local access token come from the
environment, and the mode flags are the development ones. -/
def devDefine (env : Env) : List (String × String) :=
  [ ("import.meta.env.VITE_SUBSCRIBEDEV_PUBLIC_API_KEY",
      jsonStringify (envOrEmpty env "VITE_SUBSCRIBEDEV_PUBLIC_API_KEY")),
    ("import.meta.env.VITE_SUBSCRIBEDEV_LOCAL_ACCESS_TOKEN",
      jsonStringify (envOrEmpty env "VITE_SUBSCRIBEDEV_LOCAL_ACCESS_TOKEN")),
    ("import.meta.env.DEV", "true"),
    ("import.meta.env.MODE", jsonStringify "development") ]

/-- The `Bun.build` configuration the development server uses for a given
entry path. -/
def devConfig (env : Env) (entryPath : String) : BuildConfig :=
  { entrypoints := [entryPath],
    outdir := none,
    target := "browser",
    format := "esm",
    splitting := false,
    minify := false,
    define := devDefine env }

/-- The in-memory bundle cache of the development server
(`Map<string, string>`), as an association list in insertion order. -/
abbrev BundleCache := List (String × String)

/-- `Map.prototype.get` (also covering `Map.prototype.has`):
the value stored under a key, if any. -/
def mapGet : BundleCache → String → Option String
  | [], _ => none
  | (k, v) :: rest, key => if k = key then some v else mapGet rest key

/-- `Map.prototype.set`: replace the value in place if the key is present,
append otherwise. -/
def mapSet : BundleCache → String → String → BundleCache
  | [], key, val => [(key, val)]
  | (k, v) :: rest, key, val =>
      if k = key then (key, val) :: rest else (k, v) :: mapSet rest key val

/-- `bundleCache.clear()` — as used by `invalidate-all`. -/
def invalidateAll (_cache : BundleCache) : BundleCache := []

/-- The error thrown by the development server's bundling function:
`new Error("Failed to bundle")`. It carries only a message, no partial
result. -/
structure BundleError where
  message : String
  deriving DecidableEq

instance : DecidableEq (Except BundleError String) := fun a b =>
  match a, b with
  | .ok x, .ok y =>
      if h : x = y then .isTrue (h ▸ rfl)
      else .isFalse (fun hc => h (Except.ok.inj hc))
  | .error x, .error y =>
      if h : x = y then .isTrue (h ▸ rfl)
      else .isFalse (fun hc => h (Except.error.inj hc))
  | .ok _, .error _ => .isFalse (fun hc => Except.noConfusion hc)
  | .error _, .ok _ => .isFalse (fun hc => Except.noConfusion hc)

/-- Outcome of one `bundleEntry` call: the returned text or the thrown
error, the cache state afterwards, and how many times the external bundler
was invoked during the call. -/
structure BundleStep where
  result : Except BundleError String
  cache : BundleCache
  calls : Nat
  deriving DecidableEq

/-- `bundleEntry` of the development server: return the cached text when
present; otherwise invoke the external bundler on the dev configuration,
store and return the first output's text, or throw when no output was
produced. -/
def bundleEntry (bunBuild : Bundler) (env : Env) (cache : BundleCache)
    (entryPath : String) : BundleStep :=
  match mapGet cache entryPath with
  | some cached => ⟨.ok cached, cache, 0⟩
  | none =>
    match (bunBuild (devConfig env entryPath)).outputs with
    | bundled :: _ => ⟨.ok bundled, mapSet cache entryPath bundled, 1⟩
    | [] => ⟨.error ⟨"Failed to bundle"⟩, cache, 1⟩

/-- The file-watcher callback (`fs.watch` handler): on any event whose
filename is truthy (non-null, non-empty), clear the whole cache. -/
def watchCallback (_eventType : String) (filename : Option String)
    (cache : BundleCache) : BundleCache :=
  match filename with
  | some fn => if fn = "" then cache else []
  | none => cache

/-- An HTTP response of the development server: status, body text, and the
explicitly set content type, if any. -/
structure HttpResponse where
  status : Nat
  body : String
  contentType : Option String
  deriving DecidableEq

/-- The file system visible to the server: path to contents when the file
exists. -/
abbrev FileSys := String → Option String

/-- JavaScript string conversion of the thrown error, as interpolated into
the 500 response body by the template literal `Error bundling: ...`. -/
def errorString (e : BundleError) : String := "Error: " ++ e.message

/-- JavaScript `String.prototype.startsWith`, over the character sequence. -/
def jsStartsWith (s pre : String) : Bool := pre.data.isPrefixOf s.data

/-- JavaScript `String.prototype.endsWith`, over the character sequence. -/
def jsEndsWith (s post : String) : Bool := post.data.isSuffixOf s.data

/-- The development server's `fetch` handler: root document, public assets,
source files (stylesheets as-is, scripts bundled, 500 on bundling failure),
404 otherwise. Returns the response together with the cache state and the
number of external bundler invocations performed. -/
def handleFetch (fs : FileSys) (bunBuild : Bundler) (env : Env)
    (cache : BundleCache) (path : String) : HttpResponse × BundleCache × Nat :=
  if path = "/" then
    (⟨200, (fs "index.html").getD "", none⟩, cache, 0)
  else if jsStartsWith path "/public/" && (fs ("." ++ path)).isSome then
    (⟨200, (fs ("." ++ path)).getD "", none⟩, cache, 0)
  else if jsStartsWith path "/src/" && (fs ("." ++ path)).isSome then
    if jsEndsWith ("." ++ path) ".css" then
      (⟨200, (fs ("." ++ path)).getD "", some "text/css"⟩, cache, 0)
    else if jsEndsWith ("." ++ path) ".tsx" || jsEndsWith ("." ++ path) ".ts" then
      match bundleEntry bunBuild env cache ("." ++ path) with
      | ⟨.ok bundled, cache', n⟩ =>
          (⟨200, bundled, some "application/javascript"⟩, cache', n)
      | ⟨.error e, cache', n⟩ =>
          (⟨500, "Error bundling: " ++ errorString e, none⟩, cache', n)
    else
      (⟨404, "Not Found", none⟩, cache, 0)
  else
    (⟨404, "Not Found", none⟩, cache, 0)

/-- JavaScript `String.prototype.replace` with a string pattern, over
character lists: replace the first occurrence of `pat` only. -/
def replFirst (pat rep : List Char) : List Char → List Char
  | [] => if pat.isEmpty then rep else []
  | c :: cs =>
      if pat.isPrefixOf (c :: cs) then rep ++ List.drop pat.length (c :: cs)
      else c :: replFirst pat rep cs

/-- JavaScript `s.replace(pat, rep)` for a string pattern: first occurrence
only. -/
def jsReplace (s pat rep : String) : String :=
  String.mk (replFirst pat.data rep.data s.data)

/-- The HTML rewriting of the production build script:
`html.replace('/src/index.css', '/main.css').replace('/src/main.tsx', '/main.js')`. -/
def updatedHtml (html : String) : String :=
  jsReplace (jsReplace html "/src/index.css" "/main.css") "/src/main.tsx" "/main.js"

/-- Observable outcome of running the production build script: process exit
code, error lines printed on failure, and the contents written to
`dist/index.html`, if the script got that far. -/
structure BuildScriptRun where
  exitCode : Nat
  errLines : List String
  distHtml : Option String
  deriving DecidableEq

/-- The production build script (`build.ts`): invoke the external bundler
on the production configuration; on failure report and exit with status 1
before any artifact step; on success write the rewritten `dist/index.html`
and exit 0. -/
def runBuild (bunBuild : Bundler) (env : Env) (indexHtml : String) :
    BuildScriptRun :=
  let result := bunBuild (prodConfig env)
  if result.success then
    ⟨0, [], some (updatedHtml indexHtml)⟩
  else
    ⟨1, "Build failed" :: result.logs, none⟩

/-- The props `App` passes to `SubscribeDevProvider`. -/
structure SubscribeDevProviderProps where
  projectToken : String
  accessToken : Option String
  deriving DecidableEq

/-- The element tree rendered by the root component. -/
inductive Element where
  | provider (props : SubscribeDevProviderProps) (child : Element)
  | div (className : String) (child : Element)
  | aidemo
  deriving DecidableEq

/-- The substituted `import.meta.env` visible to the application after
bundling: symbol name to substituted value. -/
abbrev MetaEnv := String → String

/-- The root component `App` (`src/App.tsx`): a `SubscribeDevProvider`
receiving only `projectToken` (the public API key), wrapping the demo UI. -/
def App (env : MetaEnv) : Element :=
  .provider
    { projectToken := env "VITE_SUBSCRIBEDEV_PUBLIC_API_KEY",
      accessToken := none }
    (.div "app" .aidemo)

/-- The provider props at the root of a rendered tree, if the root is a
provider. -/
def providerProps : Element → Option SubscribeDevProviderProps
  | .provider props _ => some props
  | _ => none

/-- The keys currently present in the bundle cache. -/
def cacheKeys (cache : BundleCache) : List String := cache.map Prod.fst

theorem cacheKeys_nil : cacheKeys [] = [] := rfl

theorem cacheKeys_cons (p : String × String) (m : BundleCache) :
    cacheKeys (p :: m) = p.1 :: cacheKeys m := rfl

theorem mapGet_mapSet_self (m : BundleCache) (k v : String) :
    mapGet (mapSet m k v) k = some v := by
  induction m with
  | nil => simp [mapSet, mapGet]
  | cons hd tl ih =>
    obtain ⟨k', v'⟩ := hd
    by_cases h : k' = k
    · subst h
      simp [mapSet, mapGet]
    · simp [mapSet, mapGet, h, ih]

theorem mem_mapSet {m : BundleCache} {k v : String} {x : String × String}
    (h : x ∈ mapSet m k v) : x = (k, v) ∨ x ∈ m := by
  induction m with
  | nil => simpa [mapSet] using h
  | cons hd tl ih =>
    obtain ⟨k', v'⟩ := hd
    by_cases hk : k' = k
    · subst hk
      simp only [mapSet, if_pos rfl] at h
      rcases List.mem_cons.mp h with h | h
      · exact Or.inl h
      · exact Or.inr (List.mem_cons_of_mem _ h)
    · simp only [mapSet, if_neg hk] at h
      rcases List.mem_cons.mp h with h | h
      · exact Or.inr (h ▸ List.mem_cons_self _ _)
      · rcases ih h with h' | h'
        · exact Or.inl h'
        · exact Or.inr (List.mem_cons_of_mem _ h')

theorem mem_cacheKeys_mapSet {m : BundleCache} {k v x : String}
    (h : x ∈ cacheKeys (mapSet m k v)) : x ∈ cacheKeys m ∨ x = k := by
  rcases List.mem_map.mp h with ⟨p, hp, hpx⟩
  rcases mem_mapSet hp with h' | h'
  · right
    rw [← hpx, h']
  · left
    exact hpx ▸ List.mem_map_of_mem _ h'

theorem cacheKeys_nodup_mapSet {m : BundleCache} {k v : String}
    (h : (cacheKeys m).Nodup) : (cacheKeys (mapSet m k v)).Nodup := by
  induction m with
  | nil => simp [mapSet, cacheKeys]
  | cons hd tl ih =>
    obtain ⟨k', v'⟩ := hd
    by_cases hk : k' = k
    · subst hk
      simp only [mapSet, if_pos rfl]
      simpa [cacheKeys_cons] using h
    · simp only [mapSet, if_neg hk, cacheKeys_cons, List.nodup_cons] at h ⊢
      refine ⟨fun hmem => ?_, ih h.2⟩
      rcases mem_cacheKeys_mapSet hmem with h' | h'
      · exact h.1 h'
      · exact hk h'

theorem replFirst_eq_of_isPrefixOf (pat rep s : List Char)
    (h : pat.isPrefixOf s = true) :
    replFirst pat rep s = rep ++ s.drop pat.length := by
  cases s with
  | nil =>
    have hp : pat = [] := by
      cases pat with
      | nil => rfl
      | cons p ps => simp at h
    subst hp
    simp [replFirst]
  | cons c cs => simp [replFirst, h]

theorem replFirst_cons_of_not_isPrefixOf (pat rep : List Char) (c : Char)
    (cs : List Char) (h : pat.isPrefixOf (c :: cs) = false) :
    replFirst pat rep (c :: cs) = c :: replFirst pat rep cs := by
  simp [replFirst, h]

theorem replFirst_first_occurrence (pat rep a b : List Char)
    (h : ∀ i, i < a.length → pat.isPrefixOf ((a ++ pat ++ b).drop i) = false) :
    replFirst pat rep (a ++ pat ++ b) = a ++ rep ++ b := by
  induction a with
  | nil =>
    simp only [List.nil_append]
    rw [replFirst_eq_of_isPrefixOf pat rep (pat ++ b)
      (List.isPrefixOf_iff_prefix.mpr (List.prefix_append pat b))]
    rw [List.drop_left]
  | cons c a' ih =>
    have h0 : pat.isPrefixOf (c :: (a' ++ pat ++ b)) = false := by
      have := h 0 (Nat.succ_pos _)
      simpa using this
    have hstep : ((c :: a') ++ pat ++ b) = c :: (a' ++ pat ++ b) := by simp
    rw [hstep, replFirst_cons_of_not_isPrefixOf pat rep c (a' ++ pat ++ b) h0]
    have ih' : ∀ i, i < a'.length →
        pat.isPrefixOf ((a' ++ pat ++ b).drop i) = false := by
      intro i hi
      have := h (i + 1) (by simpa using Nat.succ_lt_succ hi)
      rw [hstep] at this
      simpa using this
    rw [ih ih']
    simp

theorem string_data_mk (l : List Char) : (String.mk l).data = l := rfl

theorem replFirst_no_occurrence (pat rep s : List Char) (hpat : pat ≠ [])
    (h : ∀ i, i < s.length → pat.isPrefixOf (s.drop i) = false) :
    replFirst pat rep s = s := by
  induction s with
  | nil =>
    cases pat with
    | nil => exact absurd rfl hpat
    | cons p ps => simp [replFirst]
  | cons c cs ih =>
    have h0 : pat.isPrefixOf (c :: cs) = false := by
      have := h 0 (Nat.succ_pos _)
      simpa using this
    rw [replFirst_cons_of_not_isPrefixOf pat rep c cs h0]
    rw [ih (fun i hi => by simpa using h (i + 1) (Nat.succ_lt_succ hi))]

/-- C1: in every environment, including one where the local-only access
token variable is set, the production build's compile-time substitution for
the local access token symbol is the fixed literal `undefined`, and the
whole build configuration — hence the output of any bundler run on it — is
independent of that variable's value. -/
theorem prod_build_local_token_never_injected (env₁ env₂ : Env)
    (h : ∀ k, k ≠ "VITE_SUBSCRIBEDEV_LOCAL_ACCESS_TOKEN" → env₁ k = env₂ k) :
    mapGet (prodDefine env₁)
        "import.meta.env.VITE_SUBSCRIBEDEV_LOCAL_ACCESS_TOKEN"
      = some "undefined"
    ∧ prodConfig env₁ = prodConfig env₂
    ∧ ∀ bunBuild : Bundler,
        bunBuild (prodConfig env₁) = bunBuild (prodConfig env₂) := by
  have hpub : env₁ "VITE_SUBSCRIBEDEV_PUBLIC_API_KEY"
      = env₂ "VITE_SUBSCRIBEDEV_PUBLIC_API_KEY" := h _ (by decide)
  have hcfg : prodConfig env₁ = prodConfig env₂ := by
    simp [prodConfig, prodDefine, envOrEmpty, hpub]
  refine ⟨?_, hcfg, fun bunBuild => congrArg bunBuild hcfg⟩
  simp [prodDefine, mapGet]

theorem prod_build_local_token_never_injected_witness :
    mapGet (prodDefine (fun _ => none))
        "import.meta.env.VITE_SUBSCRIBEDEV_LOCAL_ACCESS_TOKEN"
      = some "undefined"
    ∧ prodConfig (fun _ => none)
        = prodConfig (fun k =>
            if k = "VITE_SUBSCRIBEDEV_LOCAL_ACCESS_TOKEN"
            then some "eyJhbGciOiJIUzI1NiJ9.secret" else none)
    ∧ ∀ bunBuild : Bundler,
        bunBuild (prodConfig (fun _ => none))
          = bunBuild (prodConfig (fun k =>
              if k = "VITE_SUBSCRIBEDEV_LOCAL_ACCESS_TOKEN"
              then some "eyJhbGciOiJIUzI1NiJ9.secret" else none)) :=
  prod_build_local_token_never_injected _ _ (by intro k hk; simp [hk])

/-- C7: the production define table maps the public API key symbol to the
JSON string literal of its environment value (empty string literal when the
variable is unset), and the mode flags to the fixed literals
DEV = false, PROD = true, MODE = "production". -/
theorem prod_define_table_values (env : Env) :
    mapGet (prodDefine env) "import.meta.env.VITE_SUBSCRIBEDEV_PUBLIC_API_KEY"
      = some (jsonStringify ((env "VITE_SUBSCRIBEDEV_PUBLIC_API_KEY").getD ""))
    ∧ (env "VITE_SUBSCRIBEDEV_PUBLIC_API_KEY" = none →
        mapGet (prodDefine env)
            "import.meta.env.VITE_SUBSCRIBEDEV_PUBLIC_API_KEY"
          = some "\"\"")
    ∧ mapGet (prodDefine env) "import.meta.env.DEV" = some "false"
    ∧ mapGet (prodDefine env) "import.meta.env.PROD" = some "true"
    ∧ mapGet (prodDefine env) "import.meta.env.MODE" = some "\"production\"" := by
  have hpub : mapGet (prodDefine env)
      "import.meta.env.VITE_SUBSCRIBEDEV_PUBLIC_API_KEY"
      = some (jsonStringify ((env "VITE_SUBSCRIBEDEV_PUBLIC_API_KEY").getD "")) := by
    simp [prodDefine, envOrEmpty, mapGet]
  refine ⟨hpub, fun hnone => ?_, ?_, ?_, ?_⟩
  · rw [hpub, hnone]
    decide
  · simp [prodDefine, mapGet]
  · simp [prodDefine, mapGet]
  · have hmode : mapGet (prodDefine env) "import.meta.env.MODE"
        = some (jsonStringify "production") := by
      simp [prodDefine, mapGet]
    rw [hmode]
    decide

theorem prod_define_table_values_witness :
    mapGet (prodDefine (fun _ => none))
        "import.meta.env.VITE_SUBSCRIBEDEV_PUBLIC_API_KEY"
      = some (jsonStringify
          (((fun _ => none : Env) "VITE_SUBSCRIBEDEV_PUBLIC_API_KEY").getD ""))
    ∧ ((fun _ => none : Env) "VITE_SUBSCRIBEDEV_PUBLIC_API_KEY" = none →
        mapGet (prodDefine (fun _ => none))
            "import.meta.env.VITE_SUBSCRIBEDEV_PUBLIC_API_KEY"
          = some "\"\"")
    ∧ mapGet (prodDefine (fun _ => none)) "import.meta.env.DEV" = some "false"
    ∧ mapGet (prodDefine (fun _ => none)) "import.meta.env.PROD" = some "true"
    ∧ mapGet (prodDefine (fun _ => none)) "import.meta.env.MODE"
        = some "\"production\"" :=
  prod_define_table_values (fun _ => none)

/-- C5: invalidate-all removes every cached entry unconditionally, and the
next get-or-build for any path afterwards performs exactly one external
bundle invocation. -/
theorem invalidateAll_clears_and_forces_rebuild (cache : BundleCache) :
    invalidateAll cache = []
    ∧ (∀ p, mapGet (invalidateAll cache) p = none)
    ∧ ∀ (bunBuild : Bundler) (env : Env) (p : String),
        (bundleEntry bunBuild env (invalidateAll cache) p).calls = 1 := by
  refine ⟨rfl, fun p => rfl, fun bunBuild env p => ?_⟩
  unfold bundleEntry invalidateAll
  cases ho : (bunBuild (devConfig env p)).outputs with
  | nil => simp only [mapGet, ho]
  | cons bundled rest => simp only [mapGet, ho]

/-- C10: the root component passes only the public API key (as
projectToken) to the provider, its accessToken prop is absent, and the
rendered tree is identical for any two substituted environments agreeing on
the public key — in particular for any two values of the local access
token. -/
theorem app_ignores_local_access_token (env₁ env₂ : MetaEnv)
    (h : env₁ "VITE_SUBSCRIBEDEV_PUBLIC_API_KEY"
        = env₂ "VITE_SUBSCRIBEDEV_PUBLIC_API_KEY") :
    App env₁ = App env₂
    ∧ ∀ env : MetaEnv, providerProps (App env)
        = some { projectToken := env "VITE_SUBSCRIBEDEV_PUBLIC_API_KEY",
                 accessToken := none } := by
  exact ⟨by simp [App, h], fun env => rfl⟩

theorem app_ignores_local_access_token_witness :
    App (fun _ => "pub_demo")
      = App (fun k =>
          if k = "VITE_SUBSCRIBEDEV_LOCAL_ACCESS_TOKEN"
          then "local-secret" else "pub_demo")
    ∧ ∀ env : MetaEnv, providerProps (App env)
        = some { projectToken := env "VITE_SUBSCRIBEDEV_PUBLIC_API_KEY",
                 accessToken := none } :=
  app_ignores_local_access_token _ _ (by decide)

/-- C2: once an entry path has been bundled successfully, a second
get-or-build on that path with no intervening invalidation returns the same
text with the cache unchanged and performs zero further external bundle
invocations. The operation consults only the cache key, never a file
modification time. -/
theorem bundleEntry_memoizes (bunBuild : Bundler) (env : Env)
    (cache : BundleCache) (p t : String) (c' : BundleCache) (n : Nat)
    (h : bundleEntry bunBuild env cache p = ⟨.ok t, c', n⟩) :
    bundleEntry bunBuild env c' p = ⟨.ok t, c', 0⟩ := by
  unfold bundleEntry at h ⊢
  cases hg : mapGet cache p with
  | some cached =>
    simp only [hg] at h
    simp only [BundleStep.mk.injEq, Except.ok.injEq] at h
    obtain ⟨rfl, rfl, rfl⟩ := h
    simp only [hg]
  | none =>
    simp only [hg] at h
    cases ho : (bunBuild (devConfig env p)).outputs with
    | nil =>
      simp only [ho] at h
      simp at h
    | cons bundled rest =>
      simp only [ho] at h
      simp only [BundleStep.mk.injEq, Except.ok.injEq] at h
      obtain ⟨rfl, rfl, rfl⟩ := h
      simp only [mapGet_mapSet_self]

theorem bundleEntry_memoizes_witness :
    bundleEntry (fun _ => ⟨true, [], ["bundled-js"]⟩) (fun _ => none)
        [("./src/main.tsx", "bundled-js")] "./src/main.tsx"
      = ⟨.ok "bundled-js", [("./src/main.tsx", "bundled-js")], 0⟩ :=
  bundleEntry_memoizes (fun _ => ⟨true, [], ["bundled-js"]⟩) (fun _ => none)
    [] "./src/main.tsx" "bundled-js" [("./src/main.tsx", "bundled-js")] 1
    (by decide)

/-- C4: when the production bundling step fails, the build script reports
the failure details and exits with status 1, writing no dist/index.html and
producing no partial artifact. -/
theorem build_failure_aborts_without_artifact (bunBuild : Bundler)
    (env : Env) (indexHtml : String)
    (h : (bunBuild (prodConfig env)).success = false) :
    runBuild bunBuild env indexHtml
      = ⟨1, "Build failed" :: (bunBuild (prodConfig env)).logs, none⟩ := by
  unfold runBuild
  simp [h]

theorem build_failure_aborts_without_artifact_witness :
    runBuild (fun _ => ⟨false, ["error: could not resolve import"], []⟩)
        (fun _ => none) "<html></html>"
      = ⟨1, "Build failed" :: ["error: could not resolve import"], none⟩ :=
  build_failure_aborts_without_artifact
    (fun _ => ⟨false, ["error: could not resolve import"], []⟩)
    (fun _ => none) "<html></html>" (by decide)

theorem bundleEntry_error_elim (bunBuild : Bundler) (env : Env)
    (cache : BundleCache) (p : String) (e : BundleError) (c' : BundleCache)
    (n : Nat) (h : bundleEntry bunBuild env cache p = ⟨.error e, c', n⟩) :
    c' = cache ∧ n = 1 ∧ mapGet cache p = none
    ∧ (bunBuild (devConfig env p)).outputs = [] := by
  unfold bundleEntry at h
  cases hg : mapGet cache p with
  | some cached =>
    simp only [hg] at h
    simp at h
  | none =>
    simp only [hg] at h
    cases ho : (bunBuild (devConfig env p)).outputs with
    | cons bundled rest =>
      simp only [ho] at h
      simp at h
    | nil =>
      simp only [ho] at h
      simp only [BundleStep.mk.injEq] at h
      exact ⟨h.2.1.symm, h.2.2.symm, rfl, rfl⟩

/-- C3: when get-or-build fails it raises BundleError (carrying only a
message, no partial result), the cache is left unchanged so the next call
for the same path re-runs the bundler from scratch (one fresh invocation),
and the development server answers the request with a 500 response. -/
theorem bundleEntry_failure_uncached_500 (bunBuild : Bundler) (env : Env)
    (cache : BundleCache) (fs : FileSys) (path : String) (e : BundleError)
    (c' : BundleCache) (n : Nat)
    (hroot : path ≠ "/")
    (hpub : jsStartsWith path "/public/" = false)
    (hsrc : jsStartsWith path "/src/" = true)
    (hfs : (fs ("." ++ path)).isSome = true)
    (hcss : jsEndsWith ("." ++ path) ".css" = false)
    (hts : (jsEndsWith ("." ++ path) ".tsx" || jsEndsWith ("." ++ path) ".ts")
        = true)
    (h : bundleEntry bunBuild env cache ("." ++ path) = ⟨.error e, c', n⟩) :
    c' = cache ∧ n = 1
    ∧ (bundleEntry bunBuild env c' ("." ++ path)).calls = 1
    ∧ (handleFetch fs bunBuild env cache path).1.status = 500
    ∧ (handleFetch fs bunBuild env cache path).2.1 = cache := by
  obtain ⟨hc, hn, hget, hout⟩ :=
    bundleEntry_error_elim bunBuild env cache ("." ++ path) e c' n h
  have hfetch : handleFetch fs bunBuild env cache path
      = (⟨500, "Error bundling: " ++ errorString e, none⟩, c', n) := by
    unfold handleFetch
    rw [if_neg hroot, if_neg (by simp [hpub]), if_pos (by simp [hsrc, hfs]),
      if_neg (by simp [hcss]), if_pos hts, h]
  refine ⟨hc, hn, ?_, by rw [hfetch], by rw [hfetch]; exact hc⟩
  subst hc
  unfold bundleEntry
  simp only [hget, hout]

theorem bundleEntry_failure_uncached_500_witness :
    ([] : BundleCache) = [] ∧ (1 : Nat) = 1
    ∧ (bundleEntry (fun _ => ⟨false, [], []⟩) (fun _ => none) []
        ("." ++ "/src/broken.ts")).calls = 1
    ∧ (handleFetch (fun q => if q = "./src/broken.ts" then some "src" else none)
        (fun _ => ⟨false, [], []⟩) (fun _ => none) [] "/src/broken.ts").1.status
        = 500
    ∧ (handleFetch (fun q => if q = "./src/broken.ts" then some "src" else none)
        (fun _ => ⟨false, [], []⟩) (fun _ => none) [] "/src/broken.ts").2.1
        = [] :=
  bundleEntry_failure_uncached_500 (fun _ => ⟨false, [], []⟩) (fun _ => none)
    [] (fun q => if q = "./src/broken.ts" then some "src" else none)
    "/src/broken.ts" ⟨"Failed to bundle"⟩ [] 1
    (by decide) (by decide) (by decide) (by decide) (by decide) (by decide)
    (by decide)

theorem cacheWFNil (bunBuild : Bundler) (env : Env) :
    (cacheKeys ([] : BundleCache)).Nodup
    ∧ ∀ kv : String × String, kv ∈ ([] : BundleCache) →
        (bunBuild (devConfig env kv.1)).outputs.head? = some kv.2 := by
  exact ⟨List.nodup_nil, fun kv hkv => absurd hkv (List.not_mem_nil kv)⟩

/-- C6: across get-or-build, invalidate-all and the watcher-triggered
clear, the cache keeps at most one entry per entry path (its key list has
no duplicates) and every stored value is the first output of a successful
bundling of exactly that path. -/
theorem cache_invariant_preserved (bunBuild : Bundler) (env : Env)
    (cache : BundleCache) (p et : String) (fn : Option String)
    (hnodup : (cacheKeys cache).Nodup)
    (hvals : ∀ kv : String × String, kv ∈ cache →
        (bunBuild (devConfig env kv.1)).outputs.head? = some kv.2) :
    ((cacheKeys (bundleEntry bunBuild env cache p).cache).Nodup
      ∧ ∀ kv : String × String, kv ∈ (bundleEntry bunBuild env cache p).cache →
          (bunBuild (devConfig env kv.1)).outputs.head? = some kv.2)
    ∧ ((cacheKeys (invalidateAll cache)).Nodup
      ∧ ∀ kv : String × String, kv ∈ invalidateAll cache →
          (bunBuild (devConfig env kv.1)).outputs.head? = some kv.2)
    ∧ ((cacheKeys (watchCallback et fn cache)).Nodup
      ∧ ∀ kv : String × String, kv ∈ watchCallback et fn cache →
          (bunBuild (devConfig env kv.1)).outputs.head? = some kv.2) := by
  refine ⟨?_, cacheWFNil bunBuild env, ?_⟩
  · unfold bundleEntry
    cases hg : mapGet cache p with
    | some cached =>
      simp only [hg]
      exact ⟨hnodup, hvals⟩
    | none =>
      simp only [hg]
      cases ho : (bunBuild (devConfig env p)).outputs with
      | nil =>
        simp only [ho]
        exact ⟨hnodup, hvals⟩
      | cons bundled rest =>
        simp only [ho]
        refine ⟨cacheKeys_nodup_mapSet hnodup, fun kv hkv => ?_⟩
        rcases mem_mapSet hkv with h' | h'
        · subst h'
          simp [ho]
        · exact hvals kv h'
  · unfold watchCallback
    cases fn with
    | none => exact ⟨hnodup, hvals⟩
    | some f =>
      by_cases hf : f = ""
      · simp only [if_pos hf]
        exact ⟨hnodup, hvals⟩
      · simp only [if_neg hf]
        exact cacheWFNil bunBuild env

theorem cache_invariant_preserved_witness :
    ((cacheKeys (bundleEntry (fun _ => ⟨true, [], ["js-out"]⟩) (fun _ => none)
        [("./src/main.tsx", "js-out")] "./src/App.tsx").cache).Nodup
      ∧ ∀ kv : String × String,
          kv ∈ (bundleEntry (fun _ => ⟨true, [], ["js-out"]⟩) (fun _ => none)
            [("./src/main.tsx", "js-out")] "./src/App.tsx").cache →
          ((fun _ => ⟨true, [], ["js-out"]⟩ : Bundler)
            (devConfig (fun _ => none) kv.1)).outputs.head? = some kv.2)
    ∧ ((cacheKeys (invalidateAll [("./src/main.tsx", "js-out")])).Nodup
      ∧ ∀ kv : String × String,
          kv ∈ invalidateAll [("./src/main.tsx", "js-out")] →
          ((fun _ => ⟨true, [], ["js-out"]⟩ : Bundler)
            (devConfig (fun _ => none) kv.1)).outputs.head? = some kv.2)
    ∧ ((cacheKeys (watchCallback "change" (some "App.tsx")
          [("./src/main.tsx", "js-out")])).Nodup
      ∧ ∀ kv : String × String,
          kv ∈ watchCallback "change" (some "App.tsx")
            [("./src/main.tsx", "js-out")] →
          ((fun _ => ⟨true, [], ["js-out"]⟩ : Bundler)
            (devConfig (fun _ => none) kv.1)).outputs.head? = some kv.2) :=
  cache_invariant_preserved (fun _ => ⟨true, [], ["js-out"]⟩) (fun _ => none)
    [("./src/main.tsx", "js-out")] "./src/App.tsx" "change" (some "App.tsx")
    (by decide) (by decide)

/-- C8: on success the production build writes dist/index.html as the input
document with the stylesheet reference rewritten to /main.css and the
script reference rewritten to /main.js, and otherwise unchanged (for a
document whose references occur exactly where the hypotheses place them). -/
theorem build_success_writes_rewritten_html (bunBuild : Bundler) (env : Env)
    (a b c : String)
    (hs : (bunBuild (prodConfig env)).success = true)
    (h1 : ∀ i, i < a.data.length →
        "/src/index.css".data.isPrefixOf
          ((a.data ++ "/src/index.css".data
            ++ (b.data ++ "/src/main.tsx".data ++ c.data)).drop i) = false)
    (h2 : ∀ i, i < (a.data ++ "/main.css".data ++ b.data).length →
        "/src/main.tsx".data.isPrefixOf
          (((a.data ++ "/main.css".data ++ b.data)
            ++ "/src/main.tsx".data ++ c.data).drop i) = false) :
    runBuild bunBuild env (a ++ "/src/index.css" ++ b ++ "/src/main.tsx" ++ c)
      = ⟨0, [], some (a ++ "/main.css" ++ b ++ "/main.js" ++ c)⟩ := by
  have step1 := replFirst_first_occurrence "/src/index.css".data
    "/main.css".data a.data (b.data ++ "/src/main.tsx".data ++ c.data) h1
  have step2 := replFirst_first_occurrence "/src/main.tsx".data
    "/main.js".data (a.data ++ "/main.css".data ++ b.data) c.data h2
  have e0 : (a ++ "/src/index.css" ++ b ++ "/src/main.tsx" ++ c).data
      = a.data ++ "/src/index.css".data
        ++ (b.data ++ "/src/main.tsx".data ++ c.data) := by
    simp [String.data_append, List.append_assoc]
  have e1 : a.data ++ "/main.css".data
        ++ (b.data ++ "/src/main.tsx".data ++ c.data)
      = (a.data ++ "/main.css".data ++ b.data)
        ++ "/src/main.tsx".data ++ c.data := by
    simp [List.append_assoc]
  have hu : updatedHtml (a ++ "/src/index.css" ++ b ++ "/src/main.tsx" ++ c)
      = a ++ "/main.css" ++ b ++ "/main.js" ++ c := by
    unfold updatedHtml jsReplace
    rw [e0, step1, string_data_mk, e1, step2]
    apply String.ext
    simp [String.data_append, string_data_mk, List.append_assoc]
  simp [runBuild, hs, hu]

theorem build_success_writes_rewritten_html_witness :
    runBuild (fun _ => ⟨true, [], ["min-js"]⟩) (fun _ => none)
        ("x" ++ "/src/index.css" ++ "y" ++ "/src/main.tsx" ++ "z")
      = ⟨0, [], some ("x" ++ "/main.css" ++ "y" ++ "/main.js" ++ "z")⟩ :=
  build_success_writes_rewritten_html (fun _ => ⟨true, [], ["min-js"]⟩)
    (fun _ => none) "x" "y" "z" (by decide) (by decide) (by decide)

/-- C9: the build's HTML rewriting replaces only the first occurrence of
each of '/src/index.css' and '/src/main.tsx': in a document containing a
reference twice (first occurrence as placed by the hypotheses), every
occurrence after the first is left unrewritten. -/
theorem html_rewrite_first_occurrence_only (a b c : String)
    (h1 : ∀ i, i < a.data.length →
        "/src/index.css".data.isPrefixOf
          ((a.data ++ "/src/index.css".data
            ++ (b.data ++ "/src/index.css".data ++ c.data)).drop i) = false)
    (h2 : ∀ i, i < (a.data ++ "/main.css".data
            ++ (b.data ++ "/src/index.css".data ++ c.data)).length →
        "/src/main.tsx".data.isPrefixOf
          ((a.data ++ "/main.css".data
            ++ (b.data ++ "/src/index.css".data ++ c.data)).drop i) = false)
    (h3 : ∀ i, i < (a.data ++ "/src/main.tsx".data
            ++ (b.data ++ "/src/main.tsx".data ++ c.data)).length →
        "/src/index.css".data.isPrefixOf
          ((a.data ++ "/src/main.tsx".data
            ++ (b.data ++ "/src/main.tsx".data ++ c.data)).drop i) = false)
    (h4 : ∀ i, i < a.data.length →
        "/src/main.tsx".data.isPrefixOf
          ((a.data ++ "/src/main.tsx".data
            ++ (b.data ++ "/src/main.tsx".data ++ c.data)).drop i) = false) :
    updatedHtml (a ++ "/src/index.css" ++ b ++ "/src/index.css" ++ c)
      = a ++ "/main.css" ++ b ++ "/src/index.css" ++ c
    ∧ updatedHtml (a ++ "/src/main.tsx" ++ b ++ "/src/main.tsx" ++ c)
      = a ++ "/main.js" ++ b ++ "/src/main.tsx" ++ c := by
  constructor
  · have step1 := replFirst_first_occurrence "/src/index.css".data
      "/main.css".data a.data (b.data ++ "/src/index.css".data ++ c.data) h1
    have step2 := replFirst_no_occurrence "/src/main.tsx".data "/main.js".data
      (a.data ++ "/main.css".data
        ++ (b.data ++ "/src/index.css".data ++ c.data)) (by decide) h2
    have e0 : (a ++ "/src/index.css" ++ b ++ "/src/index.css" ++ c).data
        = a.data ++ "/src/index.css".data
          ++ (b.data ++ "/src/index.css".data ++ c.data) := by
      simp [String.data_append, List.append_assoc]
    unfold updatedHtml jsReplace
    rw [e0, step1, string_data_mk, step2]
    apply String.ext
    simp [String.data_append, string_data_mk, List.append_assoc]
  · have step1 := replFirst_no_occurrence "/src/index.css".data
      "/main.css".data
      (a.data ++ "/src/main.tsx".data
        ++ (b.data ++ "/src/main.tsx".data ++ c.data)) (by decide) h3
    have step2 := replFirst_first_occurrence "/src/main.tsx".data
      "/main.js".data a.data (b.data ++ "/src/main.tsx".data ++ c.data) h4
    have e0 : (a ++ "/src/main.tsx" ++ b ++ "/src/main.tsx" ++ c).data
        = a.data ++ "/src/main.tsx".data
          ++ (b.data ++ "/src/main.tsx".data ++ c.data) := by
      simp [String.data_append, List.append_assoc]
    unfold updatedHtml jsReplace
    rw [e0, step1, string_data_mk, step2]
    apply String.ext
    simp [String.data_append, string_data_mk, List.append_assoc]

theorem html_rewrite_first_occurrence_only_witness :
    updatedHtml ("x" ++ "/src/index.css" ++ "y" ++ "/src/index.css" ++ "z")
      = "x" ++ "/main.css" ++ "y" ++ "/src/index.css" ++ "z"
    ∧ updatedHtml ("x" ++ "/src/main.tsx" ++ "y" ++ "/src/main.tsx" ++ "z")
      = "x" ++ "/main.js" ++ "y" ++ "/src/main.tsx" ++ "z" :=
  html_rewrite_first_occurrence_only "x" "y" "z"
    (by decide) (by decide) (by decide) (by decide)
